import Mathlib

/-!
Verification of the claude-worker-proxy message-format converter.

This file shallowly embeds the core of `src/claude.ts` (the request
converter, the non-stream response converter, the two stream re-encoders)
and `src/index.ts` (the retrying transport), and proves or refutes the
frozen claims about it.

Conventions of the embedding:
- A JavaScript value that may be `undefined` is an `Option`.
- JavaScript truthiness of a string is `s ≠ ""`; of a number, `n ≠ 0`.
- `JSON.parse` and `JSON.stringify` are runtime builtins, not repository
  code; they are passed in as parameters (`pj : String → Option Json`,
  `strf : Json → String`).
- `utils.generateId` (random id generation, `utils.ts` is not part of the
  sources) is passed in as a `gen : String` parameter; id freshness plays
  no role in any claim.
- Wall-clock fields (`created : Date.now()`) and constant fields
  (`object: chat.completion.chunk`, the constant `model` string of the
  manual re-encoder) are omitted from output chunks: no claim mentions
  them.
-/

/-- A JSON value, the shape produced by the runtime JSON parser. -/
inductive Json where
  | null : Json
  | bool (b : Bool) : Json
  | num (n : Int) : Json
  | str (s : String) : Json
  | arr (l : List Json) : Json
  | obj (l : List (String × Json)) : Json

/-! ## Model mapper (`claude.ts` lines 7-42)

A JavaScript object used as a string map is embedded as a function
`String → Option String`; the object spread `{ ...a, ...b }` is the
right-biased merge. -/

/-- `DEFAULT_MODEL_MAPPING` of `claude.ts`. -/
def DEFAULT_MODEL_MAPPING : String → Option String := fun k =>
  if k = "tinyy-model" then some ("claude-sonnet-4-5-20250929")
  else if k = "bigger-model" then some ("claude-opus-4-5-20251101")
  else if k = "gpt-4" then some ("claude-opus-4-5-20251101")
  else if k = "gpt-4o" then some ("claude-sonnet-4-5-20250929")
  else if k = "gpt-4-turbo" then some ("claude-sonnet-4-5-20250929")
  else if k = "gpt-3.5-turbo" then some ("claude-haiku-4-5-20251001")
  else none

/-- `THINKING_MODELS` of `claude.ts`: aliases that enable thinking mode. -/
def THINKING_MODELS : List String := ["tinyy-model", "bigger-model"]

/-- `setModelMapping` of `claude.ts`:
`currentModelMapping = { ...DEFAULT_MODEL_MAPPING, ...mapping }`.
The result is the active mapping value. -/
def setModelMapping (upd : String → Option String) : String → Option String :=
  fun k =>
    match upd k with
    | some v => some v
    | none => DEFAULT_MODEL_MAPPING k

/-- `mapModelName` of `claude.ts`. The active mapping is passed explicitly
(the source reads the module-level `currentModelMapping`). Note the source
tests `if (currentModelMapping[inputModel])`: a present but *empty-string*
value is falsy and falls through to the input. -/
def mapModelName (mapping : String → Option String) (inputModel : String) : String :=
  match mapping inputModel with
  | some v => if v = "" then inputModel else v
  | none => inputModel

/-! ## Stop-reason conversion (`claude.ts` lines 612-637)

The source contains two textually identical copies: the private method
`convertStopReason` and the function nested in `convertStreamResponse`. -/

/-- The private method `ClaudeProvider.convertStopReason`. `none` is an
absent (`undefined`) stop reason; the result `none` is JSON `null`. -/
def convertStopReason (claudeStopReason : Option String) : Option String :=
  match claudeStopReason with
  | some s =>
      if s = "end_turn" then some ("stop")
      else if s = "tool_use" then some ("tool_calls")
      else if s = "max_tokens" then some ("length")
      else none
  | none => none

/-- The copy of `convertStopReason` nested inside `convertStreamResponse`. -/
def convertStopReasonStream (claudeStopReason : Option String) : Option String :=
  match claudeStopReason with
  | some s =>
      if s = "end_turn" then some ("stop")
      else if s = "tool_use" then some ("tool_calls")
      else if s = "max_tokens" then some ("length")
      else none
  | none => none

/-! ## Source-protocol (OpenAI-style) request shapes (`types.ts` consumers) -/

/-- One typed part of an OpenAI message content array. `text` carries
`part.text` (possibly absent); `image_url` carries `part.image_url.url`
(possibly absent) for a part whose `image_url` object is present; every
other part shape (including `image_url` parts missing the object, which
fail the source's `part.image_url` truthiness test) is `other`. -/
inductive OAContentPart where
  | text (t : Option String) : OAContentPart
  | image_url (url : Option String) : OAContentPart
  | other : OAContentPart
  deriving DecidableEq, Repr

/-- `message.content`: absent, a plain string, or an array of parts. -/
inductive OAContent where
  | absent : OAContent
  | str (s : String) : OAContent
  | parts (l : List OAContentPart) : OAContent
  deriving DecidableEq, Repr

/-- `tool_call.function`. -/
structure OAFunctionCall where
  name : String
  arguments : String
  deriving DecidableEq, Repr

/-- One entry of `message.tool_calls`. -/
structure OAToolCall where
  id : String
  function : OAFunctionCall
  deriving DecidableEq, Repr

/-- An OpenAI chat message. `role` is kept as a raw string: the source
compares it against the literals `system` / `tool` / `assistant` and sends
everything else down the user branch. -/
structure OAMessage where
  role : String
  content : OAContent
  tool_call_id : Option String
  tool_calls : Option (List OAToolCall)
  deriving DecidableEq, Repr

/-- `tool.function` of an OpenAI tool definition. -/
structure OAFunctionDef where
  name : String
  description : Option String
  parameters : Option Json

/-- One OpenAI tool definition. -/
structure OATool where
  function : OAFunctionDef

/-- The OpenAI-style request body. `temperature` is carried but (per the
source comments) deliberately never forwarded. -/
structure OpenAIRequest where
  model : Option String
  messages : Option (List OAMessage)
  max_tokens : Option Nat
  stream : Option Bool
  tools : Option (List OATool)
  temperature : Option Int := none

/-! ## Target-protocol (Claude-style) request shapes -/

/-- One typed content block of a Claude message. -/
inductive ContentBlock where
  | text (t : String) : ContentBlock
  | image (media_type : String) (data : String) : ContentBlock
  | tool_use (id : String) (name : String) (input : Json) : ContentBlock
  | tool_result (tool_use_id : Option String) (content : String) : ContentBlock

/-- Claude message content: collapsed plain text or a block array. -/
inductive ClaudeContent where
  | str (s : String) : ClaudeContent
  | blocks (l : List ContentBlock) : ClaudeContent

/-- A Claude message (`role` is `user` or `assistant`). -/
structure ClaudeMessage where
  role : String
  content : ClaudeContent

/-- The `thinking` parameter of a Claude request. -/
structure ThinkingConfig where
  type : String
  budget_tokens : Nat
  deriving DecidableEq, Repr

/-- A converted Claude tool definition. -/
structure ClaudeTool where
  name : String
  description : String
  input_schema : Json

/-- The Claude-style request body built by `convertToProviderRequest`. -/
structure ClaudeRequest where
  model : Option String
  messages : List ClaudeMessage
  max_tokens : Nat
  stream : Option Bool
  thinking : Option ThinkingConfig
  tools : Option (List ClaudeTool)

/-! ## Message conversion (`claude.ts` lines 117-272, `convertMessages`) -/

/-- Is a block a `tool_result` block? -/
def isToolResultBlock : ContentBlock → Bool
  | ContentBlock.tool_result _ _ => true
  | _ => false

/-- The content text extracted from a `tool` message (`claude.ts` lines
138-147): a string is used as-is; an array keeps its `text` items (each
contributing `item.text || ''`) joined by newlines; anything else is `""`. -/
def toolContentOf : OAContent → String
  | OAContent.str s => s
  | OAContent.parts l =>
      String.intercalate ("\n")
        (l.filterMap fun p =>
          match p with
          | OAContentPart.text t => some (t.getD (""))
          | _ => none)
  | OAContent.absent => ""

/-- The `tool_result` block built from a `tool` message (`claude.ts`
lines 151-155). `tool_call_id` is used unchecked (`message.tool_call_id!`). -/
def toolResultOf (m : OAMessage) : ContentBlock :=
  ContentBlock.tool_result m.tool_call_id (toolContentOf m.content)

/-- The merge test of `claude.ts` lines 158-164: the previous converted
message is a `user` message whose array content already holds a
`tool_result` block. -/
def isMergeTarget (m : ClaudeMessage) : Bool :=
  m.role = "user" &&
    (match m.content with
     | ClaudeContent.blocks l => l.any isToolResultBlock
     | _ => false)

/-- Append blocks to the content array of a message (the in-place
`lastMessage.content.push(...)` of the source). -/
def appendBlocks (m : ClaudeMessage) (bs : List ContentBlock) : ClaudeMessage :=
  { m with
    content :=
      match m.content with
      | ClaudeContent.blocks l => ClaudeContent.blocks (l ++ bs)
      | c => c }

/-- Processing of one `tool` message (`claude.ts` lines 157-173): merge
into the trailing tool-result user message, else push a fresh user message. -/
def pushToolResult (cms : List ClaudeMessage) (tr : ContentBlock) : List ClaudeMessage :=
  match cms.getLast? with
  | some last =>
      if isMergeTarget last then cms.dropLast ++ [appendBlocks last [tr]]
      else cms ++ [{ role := "user", content := ClaudeContent.blocks [tr] }]
  | none => cms ++ [{ role := "user", content := ClaudeContent.blocks [tr] }]

/-- The data-URL match of `claude.ts` line 205,
regex `^data:([^;]+);base64,(.+)$`: media type (nonempty, no `;`) and
base64 payload (nonempty). Returns `(media_type, data)` on match. -/
def matchDataUrl (url : String) : Option (String × String) :=
  if url.startsWith ("data:") then
    let rest := (url.drop 5)
    let mt := rest.takeWhile (fun c => c ≠ ';')
    let after := rest.drop mt.length
    if mt ≠ "" ∧ after.startsWith (";base64,") then
      let d := after.drop 8
      if d ≠ "" then some (mt, d) else none
    else none
  else none

/-- Conversion of one content part of a `user`/`assistant` message
(`claude.ts` lines 194-224) into zero or one blocks. -/
def convertPart (p : OAContentPart) : List ContentBlock :=
  match p with
  | OAContentPart.text t => [ContentBlock.text (t.getD (""))]
  | OAContentPart.image_url u =>
      let url := u.getD ("")
      if url.startsWith ("data:") then
        match matchDataUrl url with
        | some (mt, d) => [ContentBlock.image mt d]
        | none => []
      else [ContentBlock.text ("[Image URL: " ++ url ++ "]")]
  | OAContentPart.other => []

/-- The content blocks of a `user`/`assistant` message before tool calls
(`claude.ts` lines 185-226). An empty string is falsy and contributes
nothing. -/
def contentBlocksOf : OAContent → List ContentBlock
  | OAContent.absent => []
  | OAContent.str s => if s = "" then [] else [ContentBlock.text s]
  | OAContent.parts l => l.foldr (fun p acc => convertPart p ++ acc) []

/-- Conversion of the `tool_calls` array (`claude.ts` lines 228-237).
`JSON.parse` failure on an `arguments` string aborts the whole request
conversion (the thrown exception); `pj` is the runtime JSON parser. -/
def toolUseBlocksOf (pj : String → Option Json) : List OAToolCall → Except Unit (List ContentBlock)
  | [] => Except.ok []
  | tc :: rest =>
      match pj tc.function.arguments with
      | some j =>
          (toolUseBlocksOf pj rest).map
            (fun bs => ContentBlock.tool_use tc.id tc.function.name j :: bs)
      | none => Except.error ()

/-- One iteration of the `convertMessages` loop (`claude.ts` lines
124-245). The accumulator carries the converted messages and the collected
system texts. -/
def convStep (pj : String → Option Json) (acc : List ClaudeMessage × List String)
    (m : OAMessage) : Except Unit (List ClaudeMessage × List String) :=
  if m.role = "system" then
    Except.ok (acc.1,
      match m.content with
      | OAContent.str s => acc.2 ++ [s]
      | _ => acc.2)
  else if m.role = "tool" then
    Except.ok (pushToolResult acc.1 (toolResultOf m), acc.2)
  else
    let base := contentBlocksOf m.content
    match (match m.tool_calls with
           | some l => toolUseBlocksOf pj l
           | none => Except.ok []) with
    | Except.error e => Except.error e
    | Except.ok tcs =>
        let content := base ++ tcs
        if content.isEmpty then Except.ok acc
        else
          Except.ok
            (acc.1 ++ [{ role := if m.role = "assistant" then ("assistant") else ("user"),
                         content :=
                           match content with
                           | [ContentBlock.text t] => ClaudeContent.str t
                           | l => ClaudeContent.blocks l }],
             acc.2)

/-- The `convertMessages` loop over the whole message list. -/
def convertMessagesCore (pj : String → Option Json) (msgs : List OAMessage) :
    Except Unit (List ClaudeMessage × List String) :=
  msgs.foldlM (convStep pj) ([], [])

/-- Splice the joined system prompt into the first `user` message
(`claude.ts` lines 250-265). -/
def spliceFirstUser (sp : String) : List ClaudeMessage → List ClaudeMessage
  | [] => []
  | m :: rest =>
      if m.role = "user" then
        (match m.content with
         | ClaudeContent.str s =>
             { m with content :=
                 (ClaudeContent.str ("[System Instructions]\n" ++ sp ++ "\n\n[User Message]\n" ++ s)) }
         | ClaudeContent.blocks l =>
             { m with content :=
                 (ClaudeContent.blocks (ContentBlock.text ("[System Instructions]\n" ++ sp ++ "\n\n[User Message]") :: l)) }) :: rest
      else m :: spliceFirstUser sp rest

/-- `convertMessages` (`claude.ts` lines 117-272). Returns the converted
messages; the returned `system` field is always `undefined` in the source
(the system prompt is spliced into the first user message instead, and
only when the joined prompt is truthy, i.e. nonempty). -/
def convertMessages (pj : String → Option Json) (msgs : List OAMessage) :
    Except Unit (List ClaudeMessage × Option String) :=
  match convertMessagesCore pj msgs with
  | Except.error e => Except.error e
  | Except.ok (cms, sys) =>
      let sp := String.intercalate ("\n\n") sys
      let cms' :=
        if sys ≠ [] ∧ sp ≠ "" ∧ cms.isEmpty = false then spliceFirstUser sp cms else cms
      Except.ok (cms', none)

/-! ## Request conversion (`claude.ts` lines 45-100, `convertToProviderRequest`) -/

/-- JavaScript `v || d` on an optional number: `0` is falsy. -/
def orFalsy (v : Option Nat) (d : Nat) : Nat :=
  match v with
  | some n => if n = 0 then d else n
  | none => d

/-- The converted tool definitions (`claude.ts` lines 81-87). `cs` is
`utils.cleanJsonSchema` (from `utils.ts`, which is not among the sources);
it is passed in as a parameter. -/
def convertTools (cs : Json → Json) (ts : List OATool) : List ClaudeTool :=
  ts.map fun t =>
    { name := t.function.name,
      description := t.function.description.getD (""),
      input_schema := cs (t.function.parameters.getD (Json.obj [])) }

/-- `convertToProviderRequest` (`claude.ts` lines 45-100), restricted to
the request *body* construction (URL and header assembly carry no claim).
`pj` is the runtime JSON parser, `cs` is `utils.cleanJsonSchema`, `M` the
active model mapping. An absent `messages` field makes the `for...of`
iteration throw (`Except.error`); an absent `model` flows through
unchecked. Note: the `thinking` flag is set whenever the alias is a
thinking model, with no check for tool_result blocks. -/
def convertToProviderRequest (pj : String → Option Json) (cs : Json → Json)
    (M : String → Option String) (req : OpenAIRequest) : Except Unit ClaudeRequest :=
  match req.messages with
  | none => Except.error ()
  | some ms =>
      match convertMessages pj ms with
      | Except.error e => Except.error e
      | Except.ok (messages, _) =>
          let enableThinking :=
            match req.model with
            | some m => THINKING_MODELS.contains m
            | none => false
          Except.ok
            { model := req.model.map (mapModelName M),
              messages := messages,
              max_tokens :=
                if enableThinking then max (orFalsy req.max_tokens 16000) 16000
                else orFalsy req.max_tokens 4096,
              stream := req.stream,
              thinking := if enableThinking then some { type := "enabled", budget_tokens := 10000 } else none,
              tools :=
                match req.tools with
                | some ts => if 0 < ts.length then some (convertTools cs ts) else none
                | none => none }

/-- Does any converted message contain a `tool_result` block
(`claude.ts` lines 660-662)? -/
def hasToolResult (ms : List ClaudeMessage) : Bool :=
  ms.any fun m =>
    match m.content with
    | ClaudeContent.blocks l => l.any isToolResultBlock
    | _ => false

/-- The request parameters built by `convertStreamWithSDK` (`claude.ts`
lines 643-677). Identical to `convertToProviderRequest` except that
`stream` is forced `true` and `thinking` is suppressed when a
`tool_result` block is present in the converted messages. -/
structure SDKParams where
  model : Option String
  messages : List ClaudeMessage
  max_tokens : Nat
  stream : Bool
  thinking : Option ThinkingConfig
  tools : Option (List ClaudeTool)

/-- The parameter construction of `convertStreamWithSDK`. -/
def convertStreamWithSDKParams (pj : String → Option Json) (cs : Json → Json)
    (M : String → Option String) (req : OpenAIRequest) : Except Unit SDKParams :=
  match req.messages with
  | none => Except.error ()
  | some ms =>
      match convertMessages pj ms with
      | Except.error e => Except.error e
      | Except.ok (messages, _) =>
          let enableThinking :=
            match req.model with
            | some m => THINKING_MODELS.contains m
            | none => false
          Except.ok
            { model := req.model.map (mapModelName M),
              messages := messages,
              max_tokens :=
                if enableThinking then max (orFalsy req.max_tokens 16000) 16000
                else orFalsy req.max_tokens 4096,
              stream := true,
              thinking :=
                if enableThinking && !hasToolResult messages then
                  some { type := "enabled", budget_tokens := 10000 }
                else none,
              tools :=
                match req.tools with
                | some ts => if 0 < ts.length then some (convertTools cs ts) else none
                | none => none }

/-! ## Non-stream response conversion (`claude.ts` lines 274-341) -/

/-- One content block of a complete Claude response body. -/
inductive RespBlock where
  | text (t : String) : RespBlock
  | thinking (t : String) : RespBlock
  | tool_use (id : String) (name : String) (input : Json) : RespBlock
  | other : RespBlock

/-- Token usage of a Claude response. -/
structure ClaudeUsage where
  input_tokens : Nat
  output_tokens : Nat
  deriving DecidableEq, Repr

/-- A complete Claude response body. -/
structure ClaudeResponse where
  id : String
  stop_reason : Option String
  content : List RespBlock
  usage : Option ClaudeUsage

/-- OpenAI tool-call entry of a response (`arguments` re-serialized). -/
structure OAToolCallOut where
  id : String
  name : String
  arguments : String
  deriving DecidableEq, Repr

/-- OpenAI usage of a response. -/
structure OAUsage where
  prompt_tokens : Nat
  completion_tokens : Nat
  total_tokens : Nat
  deriving DecidableEq, Repr

/-- The single-choice OpenAI response built by `convertNormalResponse`
(`created` is a wall-clock value and is omitted; `object` is constant). -/
structure OpenAIResponse where
  id : String
  model : String
  content : Option String
  tool_calls : Option (List OAToolCallOut)
  finish_reason : Option String
  usage : Option OAUsage

/-- `convertNormalResponse` (`claude.ts` lines 274-341). `strf` is the
runtime JSON serializer used for tool-call `input`. Thinking text is
wrapped in a fixed delimiter pair and placed before the regular text. -/
def convertNormalResponse (strf : Json → String) (d : ClaudeResponse) : OpenAIResponse :=
  let textContent :=
    String.join (d.content.map fun c =>
      match c with
      | RespBlock.text t => t
      | _ => "")
  let thinkingContent :=
    String.join (d.content.map fun c =>
      match c with
      | RespBlock.thinking t => t
      | _ => "")
  let toolCalls :=
    d.content.filterMap fun c =>
      match c with
      | RespBlock.tool_use i n inp => some { id := i, name := n, arguments := strf inp : OAToolCallOut }
      | _ => none
  let textContent :=
    if thinkingContent ≠ "" then
      "<thinking>\n" ++ thinkingContent ++ "\n</thinking>\n\n" ++ textContent
    else textContent
  { id := d.id,
    model := d.id,
    content := if textContent ≠ "" then some textContent else none,
    tool_calls := if 0 < toolCalls.length then some toolCalls else none,
    finish_reason := convertStopReason d.stop_reason,
    usage :=
      match d.usage with
      | some u => some { prompt_tokens := u.input_tokens,
                         completion_tokens := u.output_tokens,
                         total_tokens := u.input_tokens + u.output_tokens }
      | none => none }

/-! ## Stream re-encoding, manual SSE path
(`claude.ts` lines 343-624, `convertStreamResponse`)

The input is modelled as the list of successfully parsed `data:` events of
the upstream body, in order: unparseable lines, blank lines and the
upstream `[DONE]` literal are skipped by the source (type `other` absorbs
skipped and unknown events). The model corresponds to upstream bodies
whose final line is newline-terminated, so the leftover-buffer pass of
lines 560-573 sees an empty buffer. -/

/-- The `content_block` of a `content_block_start` event. `tool_use`
carries the optional `id` and `name` fields (truthiness-defaulted by the
source); every other kind (including `text` blocks and events missing the
`content_block` object) triggers no transition and is `other`. -/
inductive CBlock where
  | tool_use (id : Option String) (name : Option String) : CBlock
  | thinking : CBlock
  | other : CBlock
  deriving DecidableEq, Repr

/-- The `delta` of a `content_block_delta` event. -/
inductive CDelta where
  | text_delta (text : String) : CDelta
  | thinking_delta (thinking : String) : CDelta
  | input_json_delta ( partial_json : String) : CDelta
  | other : CDelta
  deriving DecidableEq, Repr

/-- A parsed upstream Claude stream event. `message_start` carries the
optional `message.id`; `message_delta` carries `none` when the event has
no `delta` object or no `stop_reason` key, and `some v` when the key is
present with (nullable) value `v`. -/
inductive ClaudeStreamEvent where
  | message_start (id : Option String) : ClaudeStreamEvent
  | content_block_start (block : CBlock) : ClaudeStreamEvent
  | content_block_delta (delta : CDelta) : ClaudeStreamEvent
  | content_block_stop : ClaudeStreamEvent
  | message_delta (stopReason : Option (Option String)) : ClaudeStreamEvent
  | message_stop : ClaudeStreamEvent
  | other : ClaudeStreamEvent
  deriving DecidableEq, Repr

/-- One in-progress tool call of the manual re-encoder
(`claude.ts` lines 360-365). -/
structure ToolCallAcc where
  index : Nat
  id : String
  name : String
  arguments : String
  deriving DecidableEq, Repr

/-- The mutable state of the manual re-encoder loop
(`claude.ts` lines 354-368). -/
structure StreamState where
  responseId : String
  inThinkingBlock : Bool
  textContent : String
  toolCalls : List ToolCallAcc
  sentDone : Bool
  sentFinishReason : Bool
  deriving DecidableEq, Repr

/-- The initial state: `responseId = utils.generateId()` is the `gen`
parameter. -/
def initStreamState (gen : String) : StreamState :=
  { responseId := gen, inThinkingBlock := false, textContent := "",
    toolCalls := [], sentDone := false, sentFinishReason := false }

/-- One output chunk written to the converted stream. `role`, `content`,
`tool_call` and `finish` are `data: {...chat.completion.chunk...}` frames
(identified by their distinguishing payload; the `role` chunk is the
`{role: assistant}, finish_reason: null` frame); `done` is the terminal
`data: [DONE]` sentinel. -/
inductive OutChunk where
  | role (id : String) : OutChunk
  | content (id : String) (text : String) : OutChunk
  | tool_call (id : String) (index : Nat) (callId : String) (name : String) (arguments : String) : OutChunk
  | finish (id : String) (reason : Option String) : OutChunk
  | done : OutChunk
  deriving DecidableEq, Repr

/-- Mutate the last in-progress tool call's arguments
(`claude.ts` lines 474-477, guarded by `toolCalls.length > 0`). -/
def appendArgsLast (ts : List ToolCallAcc) (p : String) : List ToolCallAcc :=
  match ts.getLast? with
  | some t => ts.dropLast ++ [{ t with arguments := t.arguments ++ p }]
  | none => ts

/-- One transition of the manual re-encoder (`claude.ts` lines 388-552):
the state update and the chunks enqueued for one parsed event. `gen` is
`utils.generateId()`, used to default a missing tool-use block id. -/
def convertStreamStep (gen : String) (s : StreamState) (e : ClaudeStreamEvent) :
    StreamState × List OutChunk :=
  match e with
  | ClaudeStreamEvent.message_start mid =>
      let rid :=
        match mid with
        | some i => if i = "" then s.responseId else i
        | none => s.responseId
      ({ s with responseId := rid }, [OutChunk.role rid])
  | ClaudeStreamEvent.content_block_start b =>
      match b with
      | CBlock.tool_use bid bname =>
          let tid :=
            match bid with
            | some i => if i = "" then gen else i
            | none => gen
          ({ s with toolCalls := s.toolCalls ++
              [{ index := s.toolCalls.length, id := tid,
                 name := bname.getD (""), arguments := "" }] }, [])
      | CBlock.thinking =>
          ({ s with inThinkingBlock := true },
           [OutChunk.content s.responseId ("<thinking>\n")])
      | CBlock.other => (s, [])
  | ClaudeStreamEvent.content_block_delta d =>
      match d with
      | CDelta.text_delta t =>
          if t = "" then (s, [])
          else ({ s with textContent := s.textContent ++ t },
                [OutChunk.content s.responseId t])
      | CDelta.thinking_delta t =>
          if t = "" then (s, []) else (s, [OutChunk.content s.responseId t])
      | CDelta.input_json_delta p =>
          if p = "" then (s, [])
          else ({ s with toolCalls := appendArgsLast s.toolCalls p }, [])
      | CDelta.other => (s, [])
  | ClaudeStreamEvent.content_block_stop =>
      let thinkChunks :=
        if s.inThinkingBlock then [OutChunk.content s.responseId ("\n</thinking>\n\n")] else []
      let toolChunks :=
        match s.toolCalls.getLast? with
        | some t => [OutChunk.tool_call s.responseId t.index t.id t.name t.arguments]
        | none => []
      ({ s with inThinkingBlock := false }, thinkChunks ++ toolChunks)
  | ClaudeStreamEvent.message_delta sr =>
      let fr :=
        match sr with
        | some v => convertStopReasonStream v
        | none => some ("stop")
      ({ s with sentFinishReason := true }, [OutChunk.finish s.responseId fr])
  | ClaudeStreamEvent.message_stop =>
      ({ s with sentDone := true }, [OutChunk.done])
  | ClaudeStreamEvent.other => (s, [])

/-- The read loop of the manual re-encoder over all parsed events. -/
def convertStreamLoop (gen : String) (s : StreamState) :
    List ClaudeStreamEvent → StreamState × List OutChunk
  | [] => (s, [])
  | e :: evs =>
      let sc := convertStreamStep gen s e
      let rest := convertStreamLoop gen sc.1 evs
      (rest.1, sc.2 ++ rest.2)

/-- `convertStreamResponse` (`claude.ts` lines 343-624) as a function from
the parsed upstream event list to the emitted chunk list: the loop,
followed by the completion guarantee of lines 576-595 (a defaulted
finish-reason chunk if none was sent, the terminal sentinel if none was
sent). -/
def convertStreamResponse (gen : String) (events : List ClaudeStreamEvent) : List OutChunk :=
  let r := convertStreamLoop gen (initStreamState gen) events
  r.2 ++ (if r.1.sentFinishReason then [] else [OutChunk.finish r.1.responseId (some ("stop"))])
      ++ (if r.1.sentDone then [] else [OutChunk.done])

/-! ## Stream re-encoding, SDK path (`claude.ts` lines 643-881,
`convertStreamWithSDK`)

The SDK iterator yields typed events; `message_delta`/`message_stop` style
events have no handler in the loop (absorbed by `other`), the stop reason
instead comes from `stream.finalMessage()` after the loop. -/

/-- An event yielded by the SDK stream iterator, as consumed by the loop
of lines 742-833. -/
inductive SDKEvent where
  | content_block_start_thinking : SDKEvent
  | content_block_start_tool_use (id : String) (name : String) : SDKEvent
  | content_block_start_other : SDKEvent
  | text_delta (text : String) : SDKEvent
  | thinking_delta (thinking : String) : SDKEvent
  | input_json_delta ( partial_json : String) : SDKEvent
  | delta_other : SDKEvent
  | content_block_stop : SDKEvent
  | other : SDKEvent
  deriving DecidableEq, Repr

/-- The in-progress tool call of the SDK path (`currentToolCall`). -/
structure SDKToolCall where
  id : String
  name : String
  arguments : String
  deriving DecidableEq, Repr

/-- The loop state of the SDK path (lines 726-728). -/
structure SDKState where
  inThinkingBlock : Bool
  toolCallIndex : Nat
  currentToolCall : Option SDKToolCall
  deriving DecidableEq, Repr

/-- One transition of the SDK-path loop (lines 749-832). `rid` is the
generated response id. Note: at `content_block_stop` the in-progress
record *is* cleared (`currentToolCall = null`), unlike the manual path. -/
def sdkStreamStep (rid : String) (s : SDKState) (e : SDKEvent) : SDKState × List OutChunk :=
  match e with
  | SDKEvent.content_block_start_thinking =>
      ({ s with inThinkingBlock := true }, [OutChunk.content rid ("<thinking>\n")])
  | SDKEvent.content_block_start_tool_use i n =>
      ({ s with currentToolCall := some { id := i, name := n, arguments := "" } }, [])
  | SDKEvent.content_block_start_other => (s, [])
  | SDKEvent.text_delta t => (s, [OutChunk.content rid t])
  | SDKEvent.thinking_delta t => (s, [OutChunk.content rid t])
  | SDKEvent.input_json_delta p =>
      match s.currentToolCall with
      | some c => ({ s with currentToolCall := some { c with arguments := c.arguments ++ p } }, [])
      | none => (s, [])
  | SDKEvent.delta_other => (s, [])
  | SDKEvent.content_block_stop =>
      let thinkChunks :=
        if s.inThinkingBlock then [OutChunk.content rid ("\n</thinking>\n\n")] else []
      match s.currentToolCall with
      | some c =>
          ({ inThinkingBlock := false,
             toolCallIndex := s.toolCallIndex + 1,
             currentToolCall := none },
           thinkChunks ++ [OutChunk.tool_call rid s.toolCallIndex c.id c.name c.arguments])
      | none => ({ s with inThinkingBlock := false }, thinkChunks)
  | SDKEvent.other => (s, [])

/-- The SDK-path loop over all events. -/
def sdkStreamLoop (rid : String) (s : SDKState) : List SDKEvent → SDKState × List OutChunk
  | [] => (s, [])
  | e :: evs =>
      let sc := sdkStreamStep rid s e
      let rest := sdkStreamLoop rid sc.1 evs
      (rest.1, sc.2 ++ rest.2)

/-- `convertStreamWithSDK` (`claude.ts` lines 643-881) as a function from
the SDK event list and the final message's `stop_reason` to the emitted
chunk list: the unconditional initial role chunk (lines 731-738), the
loop, the finish-reason chunk with JavaScript `|| 'stop'` defaulting
(line 838), and the terminal sentinel. -/
def convertStreamWithSDK (rid : String) (events : List SDKEvent)
    (finalStopReason : Option String) : List OutChunk :=
  let r := sdkStreamLoop rid { inThinkingBlock := false, toolCallIndex := 0, currentToolCall := none } events
  OutChunk.role rid :: r.2
    ++ [OutChunk.finish rid (some ((convertStopReason finalStopReason).getD ("stop"))), OutChunk.done]

/-! ## Retrying transport (`index.ts` lines 7-9 and 284-326, `fetchWithRetry`)

The network is modelled as an oracle mapping the attempt number (1-based)
to that attempt's outcome: a response with a status code, or a thrown
connection-level error. The side effects of one loop body are recorded as
a trace of actions (a clone-and-fetch, a sleep). -/

/-- `RETRY_STATUS_CODES` of `index.ts`. -/
def RETRY_STATUS_CODES : List Nat := [502, 503, 504]

/-- `MAX_RETRIES` of `index.ts`. -/
def MAX_RETRIES : Nat := 10

/-- `RETRY_DELAY_MS` of `index.ts`. -/
def RETRY_DELAY_MS : Nat := 1000

/-- The outcome of one `fetch(request.clone())` attempt. -/
inductive FetchOutcome where
  | ok (status : Nat) : FetchOutcome
  | err (e : String) : FetchOutcome
  deriving DecidableEq, Repr

/-- One observable action of the retry loop. -/
inductive RetryAction where
  | cloneFetch : RetryAction
  | sleep (ms : Nat) : RetryAction
  deriving DecidableEq, Repr

/-- A response, identified by the attempt that produced it and its status. -/
structure FetchResp where
  attempt : Nat
  status : Nat
  deriving DecidableEq, Repr

/-- The loop body of `fetchWithRetry` for attempts `attempt`,
`attempt + 1`, ... while `remaining` iterations are left, then the
post-loop logic (return the last transient response if any, else throw
the last error). -/
def fetchWithRetryGo (oracle : Nat → FetchOutcome) (attempt : Nat) (remaining : Nat)
    (lastError : Option String) (lastResponse : Option FetchResp) :
    Except String FetchResp × List RetryAction :=
  match remaining with
  | 0 =>
      (match lastResponse with
       | some r => Except.ok r
       | none => Except.error (lastError.getD ("All retries failed")), [])
  | r + 1 =>
      match oracle attempt with
      | FetchOutcome.ok status =>
          if status ∈ RETRY_STATUS_CODES ∧ attempt < MAX_RETRIES then
            let rest := fetchWithRetryGo oracle (attempt + 1) r lastError (some { attempt := attempt, status := status })
            (rest.1, RetryAction.cloneFetch :: RetryAction.sleep RETRY_DELAY_MS :: rest.2)
          else (Except.ok { attempt := attempt, status := status }, [RetryAction.cloneFetch])
      | FetchOutcome.err e =>
          if attempt < MAX_RETRIES then
            let rest := fetchWithRetryGo oracle (attempt + 1) r (some e) lastResponse
            (rest.1, RetryAction.cloneFetch :: RetryAction.sleep RETRY_DELAY_MS :: rest.2)
          else
            let rest := fetchWithRetryGo oracle (attempt + 1) r (some e) lastResponse
            (rest.1, RetryAction.cloneFetch :: rest.2)

/-- `fetchWithRetry` (`index.ts` lines 284-326): attempts run from 1 up to
`MAX_RETRIES`. -/
def fetchWithRetry (oracle : Nat → FetchOutcome) : Except String FetchResp × List RetryAction :=
  fetchWithRetryGo oracle 1 MAX_RETRIES none none

/-- The action trace of `n + 1` consecutive attempts of which the first
`n` are retried: fetch, sleep, ..., fetch. -/
def retryTrace : Nat → List RetryAction
  | 0 => [RetryAction.cloneFetch]
  | n + 1 => RetryAction.cloneFetch :: RetryAction.sleep RETRY_DELAY_MS :: retryTrace n

/-- An attempt outcome that makes the loop retry (when attempts remain):
a transient status or a thrown error. -/
def retryableOutcome : FetchOutcome → Bool
  | FetchOutcome.ok status => decide (status ∈ RETRY_STATUS_CODES)
  | FetchOutcome.err _ => true

/-- Is an action a clone-and-fetch? -/
def isCloneFetch : RetryAction → Bool
  | RetryAction.cloneFetch => true
  | _ => false

/-! ## Chunk and event classifiers -/

/-- Is a chunk the terminal sentinel? -/
def isDoneC : OutChunk → Bool
  | OutChunk.done => true
  | _ => false

/-- Is a chunk a finish-reason chunk? -/
def isFinishC : OutChunk → Bool
  | OutChunk.finish _ _ => true
  | _ => false

/-- Is a chunk the role-announcement chunk? -/
def isRoleC : OutChunk → Bool
  | OutChunk.role _ => true
  | _ => false

/-- Is a chunk a tool-call delta chunk? -/
def isToolCallC : OutChunk → Bool
  | OutChunk.tool_call _ _ _ _ _ => true
  | _ => false

/-- Is an upstream event `message_stop`? -/
def isMsgStopE : ClaudeStreamEvent → Bool
  | ClaudeStreamEvent.message_stop => true
  | _ => false

/-- Is an upstream event `message_delta`? -/
def isMsgDeltaE : ClaudeStreamEvent → Bool
  | ClaudeStreamEvent.message_delta _ => true
  | _ => false

/-! ## Concrete fixtures used by counterexamples and witnesses -/

/-- A JSON parser that accepts every string (value irrelevant). -/
def pjNull : String → Option Json := fun _ => some (Json.null)

/-- A JSON parser that rejects exactly the string `oops`. -/
def pjOops : String → Option Json := fun s => if s = "oops" then none else some (Json.null)

/-- An identity stand-in for `utils.cleanJsonSchema`. -/
def csId : Json → Json := fun j => j

/-- A plain user message. -/
def msgUserHi : OAMessage :=
  { role := "user"
    content := OAContent.str ("hi")
    tool_call_id := none
    tool_calls := none }

/-- A tool-result message for call `t1`. -/
def msgToolR1 : OAMessage :=
  { role := "tool"
    content := OAContent.str ("r1")
    tool_call_id := some ("t1")
    tool_calls := none }

/-- A tool-result message for call `t2`. -/
def msgToolR2 : OAMessage :=
  { role := "tool"
    content := OAContent.str ("r2")
    tool_call_id := some ("t2")
    tool_calls := none }

/-- An assistant message with empty content and no tool calls. -/
def msgEmptyAssistant : OAMessage :=
  { role := "assistant"
    content := OAContent.str ("")
    tool_call_id := none
    tool_calls := none }

/-- A tool call whose arguments string is the invalid-JSON fixture `oops`. -/
def tcOops : OAToolCall :=
  { id := "c1", function := { name := "f", arguments := "oops" } }

/-- An assistant message carrying a tool call whose arguments string is
the invalid-JSON fixture `oops`. -/
def msgBadToolCall : OAMessage :=
  { role := "assistant"
    content := OAContent.absent
    tool_call_id := none
    tool_calls := some [tcOops] }

/-- A reasoning-alias request whose converted messages contain a
tool-result block. -/
def reqThinkTool : OpenAIRequest :=
  { model := some ("tinyy-model")
    messages := some [msgToolR1]
    max_tokens := none
    stream := none
    tools := none }

/-- A request with no `model` field at all. -/
def reqNoModel : OpenAIRequest :=
  { model := none
    messages := some []
    max_tokens := none
    stream := none
    tools := none }

/-- A request containing a tool call with unparseable arguments. -/
def reqBadArgs : OpenAIRequest :=
  { model := none
    messages := some [msgUserHi, msgBadToolCall]
    max_tokens := none
    stream := none
    tools := none }

/-- Upstream events: one complete tool-use block, then a closed non-tool
block (as a text block following a tool call produces). -/
def evsToolReemit : List ClaudeStreamEvent :=
  [ClaudeStreamEvent.content_block_start (CBlock.tool_use (some ("t1")) (some ("f"))),
   ClaudeStreamEvent.content_block_delta (CDelta.input_json_delta ("\x7b\"a\":")),
   ClaudeStreamEvent.content_block_delta (CDelta.input_json_delta ("1\x7d")),
   ClaudeStreamEvent.content_block_stop,
   ClaudeStreamEvent.content_block_start (CBlock.other),
   ClaudeStreamEvent.content_block_delta (CDelta.text_delta ("x")),
   ClaudeStreamEvent.content_block_stop]

/-- The same upstream sequence as seen through the SDK iterator. -/
def sdkEvsTool : List SDKEvent :=
  [SDKEvent.content_block_start_tool_use ("t1") ("f"),
   SDKEvent.input_json_delta ("\x7b\"a\":"),
   SDKEvent.input_json_delta ("1\x7d"),
   SDKEvent.content_block_stop,
   SDKEvent.content_block_start_other,
   SDKEvent.text_delta ("x"),
   SDKEvent.content_block_stop]

/-- A fetch oracle: connection error, then a transient 503, then 200. -/
def oracleW : Nat → FetchOutcome := fun j =>
  if j = 1 then FetchOutcome.err ("boom")
  else if j = 2 then FetchOutcome.ok 503
  else FetchOutcome.ok 200

/-! ## Helper lemmas -/

theorem except_bind_error {α β : Type} (f : α → Except Unit β) :
    (Except.error () : Except Unit α) >>= f = Except.error () := rfl

theorem except_bind_ok {α β : Type} (a : α) (f : α → Except Unit β) :
    (Except.ok a : Except Unit α) >>= f = f a := rfl

/-! ## Claim C6: stop-reason mapping -/

/-- Claim C6 (confirmed). Stop-reason conversion maps `end_turn` to
`stop`, `tool_use` to `tool_calls`, `max_tokens` to `length`, and every
other or absent input to `null`; the nested stream copy agrees with the
method copy everywhere; the non-stream converter's `finish_reason` and
the stream re-encoder's `message_delta` finish chunk both apply exactly
this mapping. -/
theorem convertStopReason_table :
    convertStopReason (some ("end_turn")) = some ("stop") ∧
    convertStopReason (some ("tool_use")) = some ("tool_calls") ∧
    convertStopReason (some ("max_tokens")) = some ("length") ∧
    convertStopReason none = none ∧
    (∀ s : String, s ≠ "end_turn" → s ≠ "tool_use" → s ≠ "max_tokens" →
      convertStopReason (some s) = none) ∧
    (∀ x : Option String, convertStopReasonStream x = convertStopReason x) ∧
    (∀ (strf : Json → String) (d : ClaudeResponse),
      (convertNormalResponse strf d).finish_reason = convertStopReason d.stop_reason) ∧
    (∀ (gen : String) (s : StreamState) (v : Option String),
      (convertStreamStep gen s (ClaudeStreamEvent.message_delta (some v))).2 =
        [OutChunk.finish s.responseId (convertStopReasonStream v)]) := by
  refine ⟨rfl, rfl, rfl, rfl, ?_, ?_, ?_, ?_⟩
  · intro s h1 h2 h3
    simp [convertStopReason, h1, h2, h3]
  · intro x
    cases x with
    | none => rfl
    | some s => simp [convertStopReason, convertStopReasonStream]
  · intro strf d
    rfl
  · intro gen s v
    rfl

/-- Witness for C6: the table evaluated at an unlisted input and the two
copies compared at a listed input. -/
theorem convertStopReason_table_witness :
    convertStopReason (some ("weird")) = none ∧
    convertStopReasonStream (some ("end_turn")) = convertStopReason (some ("end_turn")) :=
  ⟨convertStopReason_table.2.2.2.2.1 ("weird") (by decide) (by decide) (by decide),
   convertStopReason_table.2.2.2.2.2.1 (some ("end_turn"))⟩

/-! ## Claim C7: model mapper resolution and partial update -/

/-- Claim C7 counterexample (refutes the claim as stated): after
`setModelMapping` with a partial mapping carrying the empty-string value
for alias `x`, the alias *is* present in the active mapping, yet
resolution returns the alias `x` rather than the mapped value `""` (the
source tests the looked-up value for truthiness, and `""` is falsy). -/
theorem mapModelName_empty_value_cex :
    setModelMapping (fun k => if k = "x" then some ("") else none) ("x") = some ("") ∧
    mapModelName (setModelMapping (fun k => if k = "x" then some ("") else none)) ("x") = "x" ∧
    ("x" : String) ≠ ("" : String) :=
  ⟨rfl, rfl, by decide⟩

/-- Claim C7 (corrected): resolution returns `mapping[alias]` when the
alias is present with a *non-empty* value, and returns the alias
unchanged when the alias is absent or mapped to the empty string (never
an error); `setModelMapping` installs the default mapping merged with the
partial update, the update winning on conflicts and the defaults
surviving everywhere else. -/
theorem mapModelName_resolution :
    (∀ (M : String → Option String) (a v : String), M a = some v → v ≠ "" → mapModelName M a = v) ∧
    (∀ (M : String → Option String) (a : String), M a = none → mapModelName M a = a) ∧
    (∀ (M : String → Option String) (a : String), M a = some ("") → mapModelName M a = a) ∧
    (∀ (upd : String → Option String) (k v : String), upd k = some v → setModelMapping upd k = some v) ∧
    (∀ (upd : String → Option String) (k : String), upd k = none →
      setModelMapping upd k = DEFAULT_MODEL_MAPPING k) := by
  refine ⟨?_, ?_, ?_, ?_, ?_⟩
  · intro M a v h hv
    simp [mapModelName, h, hv]
  · intro M a h
    simp [mapModelName, h]
  · intro M a h
    simp [mapModelName, h]
  · intro upd k v h
    simp [setModelMapping, h]
  · intro upd k h
    simp [setModelMapping, h]

/-- Witness for C7: resolution through the built-in defaults, fail-open
on an unknown alias, and default survival under an empty partial update. -/
theorem mapModelName_resolution_witness :
    mapModelName DEFAULT_MODEL_MAPPING ("gpt-4") = "claude-opus-4-5-20251101" ∧
    mapModelName DEFAULT_MODEL_MAPPING ("unknown-alias") = "unknown-alias" ∧
    setModelMapping (fun _ => none) ("tinyy-model") = DEFAULT_MODEL_MAPPING ("tinyy-model") :=
  ⟨mapModelName_resolution.1 DEFAULT_MODEL_MAPPING ("gpt-4") ("claude-opus-4-5-20251101")
      (by decide) (by decide),
   mapModelName_resolution.2.1 DEFAULT_MODEL_MAPPING ("unknown-alias") (by decide),
   mapModelName_resolution.2.2.2.2 (fun _ => none) ("tinyy-model") rfl⟩

/-! ## Claim C10: empty user/assistant messages are dropped -/

theorem convStep_empty_id (pj : String → Option Json) (acc : List ClaudeMessage × List String)
    (m : OAMessage) (hrole : m.role = "user" ∨ m.role = "assistant")
    (hcont : m.content = OAContent.absent ∨ m.content = OAContent.str (""))
    (htc : m.tool_calls = none) : convStep pj acc m = Except.ok acc := by
  have h1 : m.role ≠ "system" := by
    rcases hrole with h | h <;> rw [h] <;> decide
  have h2 : m.role ≠ "tool" := by
    rcases hrole with h | h <;> rw [h] <;> decide
  rcases hcont with h | h <;>
    simp [convStep, h1, h2, htc, h, contentBlocksOf]

/-- Claim C10 (confirmed). Every `user`- or `assistant`-role source
message whose content is absent or the empty string and that carries no
`tool_calls` contributes no message to the converted list: conversion of
any list containing such a message equals conversion of the list with it
removed (so the converted list can be shorter than the source list). -/
theorem convertMessages_drops_empty :
    ∀ (pj : String → Option Json) (pre post : List OAMessage) (m : OAMessage),
      (m.role = "user" ∨ m.role = "assistant") →
      (m.content = OAContent.absent ∨ m.content = OAContent.str ("")) →
      m.tool_calls = none →
      convertMessages pj (pre ++ m :: post) = convertMessages pj (pre ++ post) := by
  intro pj pre post m hrole hcont htc
  have hcore : convertMessagesCore pj (pre ++ m :: post) = convertMessagesCore pj (pre ++ post) := by
    unfold convertMessagesCore
    rw [List.foldlM_append, List.foldlM_append]
    cases h : List.foldlM (convStep pj) ([], []) pre with
    | error e => rfl
    | ok acc =>
        simp only [except_bind_ok, List.foldlM]
        rw [convStep_empty_id pj acc m hrole hcont htc]
        rfl
  unfold convertMessages
  rw [hcore]

/-- Witness for C10: a two-message list whose empty assistant message is
dropped, leaving a single converted message. -/
theorem convertMessages_drops_empty_witness :
    convertMessages pjNull ([msgUserHi] ++ msgEmptyAssistant :: []) =
      convertMessages pjNull ([msgUserHi] ++ []) ∧
    convertMessages pjNull [msgUserHi, msgEmptyAssistant] =
      Except.ok ([{ role := "user", content := ClaudeContent.str ("hi") }], none) :=
  ⟨convertMessages_drops_empty pjNull [msgUserHi] [] msgEmptyAssistant
      (Or.inr rfl) (Or.inr rfl) rfl,
   rfl⟩

/-! ## Claim C2: thinking-mode suppression under tool results -/

/-- Claim C2 (code bug). The claim (and spec §4.2 step 5) require the
extended-reasoning flag to be suppressed whenever a tool-result block is
present in the converted messages, *for every conversion entry point*.
The SDK streaming entry point does suppress it, but
`convertToProviderRequest` sets `thinking` for a reasoning alias
unconditionally: on a `tinyy-model` request whose messages hold a tool
message, the non-stream conversion emits `thinking = enabled` even though
the converted messages contain a tool_result block, while
`convertStreamWithSDK` on the same request emits no `thinking` flag. -/
theorem convertToProviderRequest_thinking_not_suppressed :
    (convertToProviderRequest pjNull csId DEFAULT_MODEL_MAPPING reqThinkTool).map
        (fun r => (r.thinking, hasToolResult r.messages, r.max_tokens)) =
      Except.ok (some { type := "enabled", budget_tokens := 10000 }, true, 16000) ∧
    (convertStreamWithSDKParams pjNull csId DEFAULT_MODEL_MAPPING reqThinkTool).map
        (fun p => (p.thinking, hasToolResult p.messages, p.max_tokens, p.stream)) =
      Except.ok (none, true, 16000, true) :=
  ⟨rfl, rfl⟩

/-! ## Claim C4: request-conversion failure conditions -/

/-- Claim C4 counterexample (refutes the claim as stated): a request with
no `model` field does *not* fail — conversion succeeds and the missing
model flows through unchanged (`undefined` in, `undefined` out). -/
theorem convertToProviderRequest_missing_model_ok :
    convertToProviderRequest pjNull csId DEFAULT_MODEL_MAPPING reqNoModel =
      Except.ok
        { model := none
          messages := []
          max_tokens := 4096
          stream := none
          thinking := none
          tools := none } ∧
    (convertToProviderRequest pjNull csId DEFAULT_MODEL_MAPPING reqNoModel).isOk = true :=
  ⟨rfl, rfl⟩

theorem toolUseBlocksOf_error_iff (pj : String → Option Json) :
    ∀ l : List OAToolCall, toolUseBlocksOf pj l = Except.error () ↔
      ∃ tc ∈ l, pj tc.function.arguments = none := by
  intro l
  induction l with
  | nil => simp [toolUseBlocksOf]
  | cons tc rest ih =>
      cases h : pj tc.function.arguments with
      | none => simp [toolUseBlocksOf, h]
      | some j =>
          cases h2 : toolUseBlocksOf pj rest with
          | error e =>
              cases e
              simp only [toolUseBlocksOf, h, h2, Except.map]
              simp [← ih, h2, h]
          | ok bs =>
              simp only [toolUseBlocksOf, h, h2, Except.map]
              simp [← ih, h2, h]

theorem convStep_error_iff (pj : String → Option Json) (acc : List ClaudeMessage × List String)
    (m : OAMessage) :
    convStep pj acc m = Except.error () ↔
      (m.role ≠ "system" ∧ m.role ≠ "tool" ∧
        ∃ tc ∈ m.tool_calls.getD [], pj tc.function.arguments = none) := by
  by_cases h1 : m.role = "system"
  · simp [convStep, h1]
  · by_cases h2 : m.role = "tool"
    · simp [convStep, h1, h2]
    · cases htc : m.tool_calls with
      | none =>
          simp only [convStep, if_neg h1, if_neg h2, htc]
          constructor
          · intro h
            split at h <;> cases h
          · rintro ⟨-, -, tc, htc', -⟩
            simp at htc'
      | some l =>
          cases he : toolUseBlocksOf pj l with
          | error e =>
              cases e
              have hl := (toolUseBlocksOf_error_iff pj l).mp he
              simp [convStep, if_neg h1, if_neg h2, htc, he, h1, h2, hl]
          | ok tcs =>
              have hl : ¬ ∃ tc ∈ l, pj tc.function.arguments = none := by
                intro hx
                have := (toolUseBlocksOf_error_iff pj l).mpr hx
                rw [he] at this
                cases this
              simp only [convStep, if_neg h1, if_neg h2, htc, he, Option.getD]
              constructor
              · intro h
                split at h <;> cases h
              · rintro ⟨-, -, tc, htc', harg⟩
                exact absurd ⟨tc, htc', harg⟩ hl

theorem foldlM_convStep_error_iff (pj : String → Option Json) :
    ∀ (msgs : List OAMessage) (acc : List ClaudeMessage × List String),
      (msgs.foldlM (convStep pj) acc = Except.error ()) ↔
        ∃ m ∈ msgs, m.role ≠ "system" ∧ m.role ≠ "tool" ∧
          ∃ tc ∈ m.tool_calls.getD [], pj tc.function.arguments = none := by
  intro msgs
  induction msgs with
  | nil =>
      intro acc
      constructor
      · intro h
        exact Except.noConfusion h
      · rintro ⟨m, hm, -⟩
        simp at hm
  | cons m rest ih =>
      intro acc
      cases hs : convStep pj acc m with
      | error e =>
          cases e
          have hbad := (convStep_error_iff pj acc m).mp hs
          simp [List.foldlM, hs, except_bind_error, hbad]
      | ok acc' =>
          have hgood : ¬(m.role ≠ "system" ∧ m.role ≠ "tool" ∧
              ∃ tc ∈ m.tool_calls.getD [], pj tc.function.arguments = none) := by
            intro hb
            have := (convStep_error_iff pj acc m).mpr hb
            rw [hs] at this
            cases this
          simp [List.foldlM, hs, except_bind_ok, ih acc', hgood]

/-- Claim C4 (corrected). Request conversion fails exactly when the
`messages` field is absent (the `for...of` iteration throws) or some
non-system, non-tool message carries a `tool_calls` entry whose
`arguments` string is not valid JSON (`JSON.parse` throws). In
particular, an absent or unmapped `model` never causes a failure: the
model value flows through the mapper unchanged. There is no structured
`MalformedRequest` error value in the code — failure is a thrown
exception. -/
theorem convertToProviderRequest_failure_iff :
    ∀ (pj : String → Option Json) (cs : Json → Json) (M : String → Option String)
      (req : OpenAIRequest),
      (convertToProviderRequest pj cs M req = Except.error ()) ↔
        (req.messages = none ∨
          ∃ m ∈ req.messages.getD [], m.role ≠ "system" ∧ m.role ≠ "tool" ∧
            ∃ tc ∈ m.tool_calls.getD [], pj tc.function.arguments = none) := by
  intro pj cs M req
  cases hm : req.messages with
  | none => simp [convertToProviderRequest, hm]
  | some ms =>
      have hcore := foldlM_convStep_error_iff pj ms ([], [])
      simp only [convertToProviderRequest, hm, Option.getD_some]
      unfold convertMessages
      cases hc : convertMessagesCore pj ms with
      | error e =>
          cases e
          have hc' : List.foldlM (convStep pj) ([], []) ms = Except.error () := hc
          constructor
          · intro _
            exact Or.inr (hcore.mp hc')
          · intro _
            rfl
      | ok p =>
          obtain ⟨cms, sys⟩ := p
          have hc' : List.foldlM (convStep pj) ([], []) ms = Except.ok (cms, sys) := hc
          constructor
          · intro h
            exact absurd h (fun h => Except.noConfusion h)
          · rintro (h | hx)
            · exact Option.noConfusion h
            · exfalso
              have hthis := hcore.mpr hx
              rw [hc'] at hthis
              exact Except.noConfusion hthis

/-- Witness for C4: the characterization applied to a request whose
second message carries the invalid-JSON arguments fixture. -/
theorem convertToProviderRequest_failure_iff_witness :
    convertToProviderRequest pjOops csId DEFAULT_MODEL_MAPPING reqBadArgs = Except.error () :=
  (convertToProviderRequest_failure_iff pjOops csId DEFAULT_MODEL_MAPPING reqBadArgs).mpr
    (Or.inr ⟨msgBadToolCall, by decide, by decide, by decide, tcOops, by decide, rfl⟩)

/-! ## Claim C5: consecutive tool messages merge into one user message -/

theorem appendBlocks_nil (m : ClaudeMessage) : appendBlocks m [] = m := by
  cases m with
  | mk r c =>
      cases c <;> simp [appendBlocks]

theorem appendBlocks_append (m : ClaudeMessage) (tr : ContentBlock) (rest : List ContentBlock) :
    appendBlocks (appendBlocks m [tr]) rest = appendBlocks m (tr :: rest) := by
  cases m with
  | mk r c =>
      cases c <;> simp [appendBlocks]

theorem isMergeTarget_appendBlocks (m : ClaudeMessage) (bs : List ContentBlock)
    (h : isMergeTarget m = true) : isMergeTarget (appendBlocks m bs) = true := by
  cases m with
  | mk r c =>
      cases c with
      | str s => simpa [appendBlocks] using h
      | blocks l =>
          simp only [isMergeTarget, appendBlocks, Bool.and_eq_true] at h ⊢
          exact ⟨h.1, by simp [List.any_append, h.2]⟩

theorem eq_dropLast_concat_of_getLast? {α : Type} :
    ∀ (l : List α) (a : α), l.getLast? = some a → l = l.dropLast ++ [a] := by
  intro l
  induction l with
  | nil => intro a h; cases h
  | cons x xs ih =>
      intro a h
      cases xs with
      | nil =>
          simp only [List.getLast?_singleton, Option.some.injEq] at h
          subst h
          rfl
      | cons y ys =>
          rw [List.getLast?_cons_cons] at h
          have := ih a h
          calc x :: y :: ys = x :: ((y :: ys).dropLast ++ [a]) := by rw [← this]
            _ = (x :: y :: ys).dropLast ++ [a] := by simp

theorem pushToolResult_merge_run :
    ∀ (trs : List ContentBlock) (cms : List ClaudeMessage) (last : ClaudeMessage),
      isMergeTarget last = true →
      trs.foldl pushToolResult (cms ++ [last]) = cms ++ [appendBlocks last trs] := by
  intro trs
  induction trs with
  | nil =>
      intro cms last _
      simp [appendBlocks_nil]
  | cons tr rest ih =>
      intro cms last hm
      rw [List.foldl_cons]
      have hpush : pushToolResult (cms ++ [last]) tr = cms ++ [appendBlocks last [tr]] := by
        simp [pushToolResult, List.getLast?_concat, hm, List.dropLast_concat]
      rw [hpush, ih cms (appendBlocks last [tr]) (isMergeTarget_appendBlocks last [tr] hm),
          appendBlocks_append]

theorem isMergeTarget_fresh (tr : ContentBlock) (h : isToolResultBlock tr = true) :
    isMergeTarget { role := "user", content := ClaudeContent.blocks [tr] } = true := by
  simp [isMergeTarget, h]

theorem pushToolResult_run :
    ∀ (trs : List ContentBlock) (cms : List ClaudeMessage),
      trs ≠ [] → (∀ b ∈ trs, isToolResultBlock b = true) →
      trs.foldl pushToolResult cms =
        (match cms.getLast? with
         | some last =>
             if isMergeTarget last then cms.dropLast ++ [appendBlocks last trs]
             else cms ++ [{ role := "user", content := ClaudeContent.blocks trs }]
         | none => cms ++ [{ role := "user", content := ClaudeContent.blocks trs }]) := by
  intro trs cms hne hall
  cases trs with
  | nil => exact absurd rfl hne
  | cons tr rest =>
      have htr : isToolResultBlock tr = true := hall tr (List.mem_cons_self tr rest)
      rw [List.foldl_cons]
      cases hlast : cms.getLast? with
      | none =>
          have hcms : cms = [] := by
            cases cms with
            | nil => rfl
            | cons c cs => simp [List.getLast?_eq_getLast] at hlast
          subst hcms
          have hpush : pushToolResult [] tr =
              [] ++ [{ role := "user", content := ClaudeContent.blocks [tr] }] := rfl
          rw [hpush, pushToolResult_merge_run rest [] _ (isMergeTarget_fresh tr htr)]
          simp [appendBlocks]
      | some last =>
          have hsplit := eq_dropLast_concat_of_getLast? cms last hlast
          by_cases hm : isMergeTarget last = true
          · have hpush : pushToolResult cms tr = cms.dropLast ++ [appendBlocks last [tr]] := by
              simp [pushToolResult, hlast, hm]
            rw [hpush, pushToolResult_merge_run rest cms.dropLast _
                  (isMergeTarget_appendBlocks last [tr] hm),
                appendBlocks_append]
            simp [hlast, hm]
          · have hpush : pushToolResult cms tr =
                cms ++ [{ role := "user", content := ClaudeContent.blocks [tr] }] := by
              simp [pushToolResult, hlast, hm]
            rw [hpush, pushToolResult_merge_run rest cms _ (isMergeTarget_fresh tr htr)]
            simp [hlast, hm, appendBlocks]

theorem convStep_tool (pj : String → Option Json) (acc : List ClaudeMessage × List String)
    (m : OAMessage) (h : m.role = "tool") :
    convStep pj acc m = Except.ok (pushToolResult acc.1 (toolResultOf m), acc.2) := by
  have h1 : m.role ≠ "system" := by rw [h]; decide
  simp [convStep, h1, h]

theorem foldlM_tool_run (pj : String → Option Json) :
    ∀ (run : List OAMessage) (acc : List ClaudeMessage × List String),
      (∀ m ∈ run, m.role = "tool") →
      run.foldlM (convStep pj) acc =
        Except.ok ((run.map toolResultOf).foldl pushToolResult acc.1, acc.2) := by
  intro run
  induction run with
  | nil => intro acc _; rfl
  | cons m rest ih =>
      intro acc hall
      have hm : m.role = "tool" := hall m (List.mem_cons_self m rest)
      have hrest : ∀ x ∈ rest, x.role = "tool" := fun x hx => hall x (List.mem_cons_of_mem m hx)
      simp only [List.foldlM, convStep_tool pj acc m hm, except_bind_ok,
        ih (pushToolResult acc.1 (toolResultOf m), acc.2) hrest]
      simp [List.foldl_cons]

theorem convStep_snd_preserved (pj : String → Option Json)
    (acc : List ClaudeMessage × List String) (m : OAMessage)
    (acc' : List ClaudeMessage × List String) (hsys : m.role ≠ "system")
    (hstep : convStep pj acc m = Except.ok acc') : acc'.2 = acc.2 := by
  by_cases ht : m.role = "tool"
  · rw [convStep_tool pj acc m ht] at hstep
    cases hstep
    rfl
  · simp only [convStep, if_neg hsys, if_neg ht] at hstep
    split at hstep
    · exact Except.noConfusion hstep
    · split at hstep <;> (cases hstep; rfl)

theorem foldlM_sys_unchanged (pj : String → Option Json) :
    ∀ (msgs : List OAMessage) (acc : List ClaudeMessage × List String)
      (cms : List ClaudeMessage) (sys : List String),
      (∀ m ∈ msgs, m.role ≠ "system") →
      msgs.foldlM (convStep pj) acc = Except.ok (cms, sys) → sys = acc.2 := by
  intro msgs
  induction msgs with
  | nil =>
      intro acc cms sys _ h
      cases h
      rfl
  | cons m rest ih =>
      intro acc cms sys hall h
      have hm : m.role ≠ "system" := hall m (List.mem_cons_self m rest)
      have hrest : ∀ x ∈ rest, x.role ≠ "system" := fun x hx => hall x (List.mem_cons_of_mem m hx)
      simp only [List.foldlM] at h
      cases hs : convStep pj acc m with
      | error e => rw [hs] at h; exact Except.noConfusion h
      | ok acc' =>
          rw [hs] at h
          have h2 : rest.foldlM (convStep pj) acc' = Except.ok (cms, sys) := h
          rw [ih acc' cms sys hrest h2]
          exact convStep_snd_preserved pj acc m acc' hm hs

theorem toolResultOf_isToolResult (m : OAMessage) : isToolResultBlock (toolResultOf m) = true := rfl

/-- Claim C5 (confirmed). For any source prefix `pre` (with no system
messages, so the system-prompt splice is inert) followed by a run of at
least two consecutive tool-role messages, conversion appends *all* of the
run's tool-result blocks, in input order, to exactly one user message:
either merged into the trailing tool-result user message produced by the
prefix, or as exactly one fresh user message holding the whole run — so
the run contributes at most one user message regardless of its length,
preserving strict user/assistant alternation. -/
theorem convertMessages_merges_tool_run :
    ∀ (pj : String → Option Json) (pre run : List OAMessage)
      (cms : List ClaudeMessage) (sys : List String),
      2 ≤ run.length → (∀ m ∈ run, m.role = "tool") → (∀ m ∈ pre, m.role ≠ "system") →
      convertMessagesCore pj pre = Except.ok (cms, sys) →
      convertMessages pj (pre ++ run) = Except.ok (
        (match cms.getLast? with
         | some last =>
             if isMergeTarget last then cms.dropLast ++ [appendBlocks last (run.map toolResultOf)]
             else cms ++ [{ role := "user", content := ClaudeContent.blocks (run.map toolResultOf) }]
         | none => cms ++ [{ role := "user", content := ClaudeContent.blocks (run.map toolResultOf) }]),
        none) := by
  intro pj pre run cms sys hlen hrun hpre hcore
  have hsys : sys = [] := foldlM_sys_unchanged pj pre ([], []) cms sys hpre hcore
  subst hsys
  have hrunne : run ≠ [] := by
    intro h
    rw [h] at hlen
    exact absurd hlen (by decide)
  have hmapne : run.map toolResultOf ≠ [] := by
    simpa using hrunne
  have hmapall : ∀ b ∈ run.map toolResultOf, isToolResultBlock b = true := by
    intro b hb
    obtain ⟨m, -, rfl⟩ := List.mem_map.mp hb
    exact toolResultOf_isToolResult m
  have hcore2 : convertMessagesCore pj (pre ++ run) =
      Except.ok ((run.map toolResultOf).foldl pushToolResult cms, []) := by
    unfold convertMessagesCore at hcore ⊢
    rw [List.foldlM_append, hcore, except_bind_ok, foldlM_tool_run pj run (cms, []) hrun]
  unfold convertMessages
  rw [hcore2, pushToolResult_run (run.map toolResultOf) cms hmapne hmapall]
  simp

/-- Witness for C5: a user message followed by two tool messages becomes
exactly two converted messages, the second holding both tool-result
blocks in order. -/
theorem convertMessages_merges_tool_run_witness :
    convertMessages pjNull ([msgUserHi] ++ [msgToolR1, msgToolR2]) =
      Except.ok
        ([{ role := "user", content := ClaudeContent.str ("hi") },
          { role := "user", content := ClaudeContent.blocks
              [ContentBlock.tool_result (some ("t1")) ("r1"),
               ContentBlock.tool_result (some ("t2")) ("r2")] }], none) :=
  convertMessages_merges_tool_run pjNull [msgUserHi] [msgToolR1, msgToolR2]
    [{ role := "user", content := ClaudeContent.str ("hi") }] []
    (by decide) (by decide) (by decide) rfl

/-! ## Stream re-encoder counting lemmas -/

theorem convertStreamStep_counts (gen : String) (s : StreamState) (e : ClaudeStreamEvent) :
    ((convertStreamStep gen s e).2.countP isDoneC = if isMsgStopE e then 1 else 0) ∧
    ((convertStreamStep gen s e).2.countP isFinishC = if isMsgDeltaE e then 1 else 0) ∧
    ((convertStreamStep gen s e).1.sentDone = (s.sentDone || isMsgStopE e)) ∧
    ((convertStreamStep gen s e).1.sentFinishReason = (s.sentFinishReason || isMsgDeltaE e)) := by
  cases e with
  | message_start mid =>
      cases mid with
      | none => simp [convertStreamStep, isMsgStopE, isMsgDeltaE, isDoneC, isFinishC]
      | some i =>
          by_cases hi : i = "" <;>
            simp [convertStreamStep, isMsgStopE, isMsgDeltaE, isDoneC, isFinishC, hi]
  | content_block_start b =>
      cases b with
      | tool_use bid bname =>
          simp [convertStreamStep, isMsgStopE, isMsgDeltaE]
      | thinking => simp [convertStreamStep, isMsgStopE, isMsgDeltaE, isDoneC, isFinishC]
      | other => simp [convertStreamStep, isMsgStopE, isMsgDeltaE]
  | content_block_delta d =>
      cases d with
      | text_delta t =>
          by_cases ht : t = "" <;>
            simp [convertStreamStep, isMsgStopE, isMsgDeltaE, isDoneC, isFinishC, ht]
      | thinking_delta t =>
          by_cases ht : t = "" <;>
            simp [convertStreamStep, isMsgStopE, isMsgDeltaE, isDoneC, isFinishC, ht]
      | input_json_delta p =>
          by_cases hp : p = "" <;>
            simp [convertStreamStep, isMsgStopE, isMsgDeltaE, hp]
      | other => simp [convertStreamStep, isMsgStopE, isMsgDeltaE]
  | content_block_stop =>
      cases h1 : s.inThinkingBlock <;> cases h2 : s.toolCalls.getLast? <;>
        simp [convertStreamStep, isMsgStopE, isMsgDeltaE, isDoneC, isFinishC, h1, h2]
  | message_delta sr =>
      cases sr <;>
        simp [convertStreamStep, isMsgStopE, isMsgDeltaE, isDoneC, isFinishC]
  | message_stop => simp [convertStreamStep, isMsgStopE, isMsgDeltaE, isDoneC, isFinishC]
  | other => simp [convertStreamStep, isMsgStopE, isMsgDeltaE]

theorem convertStreamLoop_counts (gen : String) :
    ∀ (evs : List ClaudeStreamEvent) (s : StreamState),
      ((convertStreamLoop gen s evs).2.countP isDoneC = evs.countP isMsgStopE) ∧
      ((convertStreamLoop gen s evs).2.countP isFinishC = evs.countP isMsgDeltaE) ∧
      ((convertStreamLoop gen s evs).1.sentDone = (s.sentDone || evs.any isMsgStopE)) ∧
      ((convertStreamLoop gen s evs).1.sentFinishReason =
        (s.sentFinishReason || evs.any isMsgDeltaE)) := by
  intro evs
  induction evs with
  | nil => intro s; simp [convertStreamLoop]
  | cons e evs ih =>
      intro s
      obtain ⟨hd, hf, hsd, hsf⟩ := convertStreamStep_counts gen s e
      obtain ⟨ihd, ihf, ihsd, ihsf⟩ := ih (convertStreamStep gen s e).1
      simp only [convertStreamLoop, List.countP_append, List.countP_cons, List.any_cons]
      refine ⟨?_, ?_, ?_, ?_⟩
      · rw [hd, ihd]; cases isMsgStopE e <;> simp [Nat.add_comm]
      · rw [hf, ihf]; cases isMsgDeltaE e <;> simp [Nat.add_comm]
      · rw [ihsd, hsd, Bool.or_assoc]
      · rw [ihsf, hsf, Bool.or_assoc]

/-! ## Claim C1: guaranteed stream termination -/

/-- Claim C1 counterexample (refutes the claim as stated): two upstream
`message_stop` events produce two terminal sentinels (the output is not
terminated exactly once); and an upstream sequence without `message_stop`
but with a `message_delta` followed by more content does *not* end with a
finish-reason chunk followed by the sentinel — the finish chunk is
emitted at the `message_delta`, content follows it, and only the sentinel
is appended at the end. -/
theorem convertStreamResponse_termination_cex :
    (convertStreamResponse ("g")
        [ClaudeStreamEvent.message_stop, ClaudeStreamEvent.message_stop]).countP isDoneC = 2 ∧
    convertStreamResponse ("g")
        [ClaudeStreamEvent.message_delta none,
         ClaudeStreamEvent.content_block_delta (CDelta.text_delta ("x"))] =
      [OutChunk.finish ("g") (some ("stop")), OutChunk.content ("g") ("x"), OutChunk.done] ∧
    ¬ ∃ (body : List OutChunk) (rid : String) (r : Option String),
        convertStreamResponse ("g")
            [ClaudeStreamEvent.message_delta none,
             ClaudeStreamEvent.content_block_delta (CDelta.text_delta ("x"))] =
          body ++ [OutChunk.finish rid r, OutChunk.done] := by
  refine ⟨rfl, rfl, ?_⟩
  rintro ⟨body, rid, r, h⟩
  have h' : ([OutChunk.finish ("g") (some ("stop")), OutChunk.content ("g") ("x"),
      OutChunk.done] : List OutChunk) = body ++ [OutChunk.finish rid r, OutChunk.done] := h
  rcases body with _ | ⟨b1, _ | ⟨b2, body3⟩⟩
  · have hlen := congrArg List.length h'
    simp at hlen
  · injection h' with h1 h2
    injection h2 with h3 h4
    exact OutChunk.noConfusion h3
  · have hlen := congrArg List.length h'
    simp at hlen

/-- Claim C1 (corrected). For every upstream event sequence the produced
stream carries exactly `max 1 k` terminal sentinels, where `k` counts the
upstream `message_stop` events (so it is always terminated, and
terminated exactly once whenever the upstream sends at most one
`message_stop`), and exactly `max 1 j` finish-reason chunks, where `j`
counts the `message_delta` events; and for every upstream sequence
containing neither `message_delta` nor `message_stop` (in particular any
truncated stream), the output ends with exactly one finish-reason chunk
carrying `stop` followed by exactly one terminal sentinel, with no other
finish or terminal chunk anywhere in the output. -/
theorem convertStreamResponse_termination :
    (∀ (gen : String) (evs : List ClaudeStreamEvent),
      (convertStreamResponse gen evs).countP isDoneC = max 1 (evs.countP isMsgStopE)) ∧
    (∀ (gen : String) (evs : List ClaudeStreamEvent),
      (convertStreamResponse gen evs).countP isFinishC = max 1 (evs.countP isMsgDeltaE)) ∧
    (∀ (gen : String) (evs : List ClaudeStreamEvent),
      evs.countP isMsgStopE = 0 → evs.countP isMsgDeltaE = 0 →
      ∃ (body : List OutChunk) (rid : String),
        convertStreamResponse gen evs = body ++ [OutChunk.finish rid (some ("stop")), OutChunk.done] ∧
        body.countP isFinishC = 0 ∧ body.countP isDoneC = 0) := by
  have hout : ∀ (gen : String) (evs : List ClaudeStreamEvent),
      convertStreamResponse gen evs =
        (convertStreamLoop gen (initStreamState gen) evs).2
          ++ (if (convertStreamLoop gen (initStreamState gen) evs).1.sentFinishReason then []
              else [OutChunk.finish (convertStreamLoop gen (initStreamState gen) evs).1.responseId
                      (some ("stop"))])
          ++ (if (convertStreamLoop gen (initStreamState gen) evs).1.sentDone then []
              else [OutChunk.done]) := fun gen evs => rfl
  refine ⟨?_, ?_, ?_⟩
  · intro gen evs
    obtain ⟨hd, -, hsd, -⟩ := convertStreamLoop_counts gen evs (initStreamState gen)
    rw [show (initStreamState gen).sentDone = false from rfl, Bool.false_or] at hsd
    rw [hout gen evs, List.countP_append, List.countP_append, hd]
    cases hany : (evs.any isMsgStopE) with
    | false =>
        have hz : evs.countP isMsgStopE = 0 := by
          rw [List.countP_eq_zero]
          intro a ha hpa
          have hth : evs.any isMsgStopE = true := List.any_eq_true.mpr ⟨a, ha, hpa⟩
          rw [hany] at hth
          exact Bool.noConfusion hth
        rw [hany] at hsd
        rw [hz, hsd]
        cases hfin : (convertStreamLoop gen (initStreamState gen) evs).1.sentFinishReason <;>
          simp [isDoneC]
    | true =>
        have hpos : 0 < evs.countP isMsgStopE := by
          obtain ⟨a, ha, hpa⟩ := List.any_eq_true.mp hany
          exact List.countP_pos_iff.mpr ⟨a, ha, hpa⟩
        rw [hany] at hsd
        rw [hsd, Nat.max_eq_right hpos]
        cases hfin : (convertStreamLoop gen (initStreamState gen) evs).1.sentFinishReason <;>
          simp [isDoneC]
  · intro gen evs
    obtain ⟨-, hf, -, hsf⟩ := convertStreamLoop_counts gen evs (initStreamState gen)
    rw [show (initStreamState gen).sentFinishReason = false from rfl, Bool.false_or] at hsf
    rw [hout gen evs, List.countP_append, List.countP_append, hf]
    cases hany : (evs.any isMsgDeltaE) with
    | false =>
        have hz : evs.countP isMsgDeltaE = 0 := by
          rw [List.countP_eq_zero]
          intro a ha hpa
          have hth : evs.any isMsgDeltaE = true := List.any_eq_true.mpr ⟨a, ha, hpa⟩
          rw [hany] at hth
          exact Bool.noConfusion hth
        rw [hany] at hsf
        rw [hz, hsf]
        cases hdn : (convertStreamLoop gen (initStreamState gen) evs).1.sentDone <;>
          simp [isFinishC]
    | true =>
        have hpos : 0 < evs.countP isMsgDeltaE := by
          obtain ⟨a, ha, hpa⟩ := List.any_eq_true.mp hany
          exact List.countP_pos_iff.mpr ⟨a, ha, hpa⟩
        rw [hany] at hsf
        rw [hsf, Nat.max_eq_right hpos]
        cases hdn : (convertStreamLoop gen (initStreamState gen) evs).1.sentDone <;>
          simp [isFinishC]
  · intro gen evs hstop hdelta
    obtain ⟨hd, hf, hsd, hsf⟩ := convertStreamLoop_counts gen evs (initStreamState gen)
    rw [show (initStreamState gen).sentDone = false from rfl, Bool.false_or] at hsd
    rw [show (initStreamState gen).sentFinishReason = false from rfl, Bool.false_or] at hsf
    have hanyStop : evs.any isMsgStopE = false := by
      rw [List.any_eq_false]
      intro a ha hpa
      have := List.countP_pos_iff.mpr ⟨a, ha, hpa⟩
      omega
    have hanyDelta : evs.any isMsgDeltaE = false := by
      rw [List.any_eq_false]
      intro a ha hpa
      have := List.countP_pos_iff.mpr ⟨a, ha, hpa⟩
      omega
    rw [hanyStop] at hsd
    rw [hanyDelta] at hsf
    refine ⟨(convertStreamLoop gen (initStreamState gen) evs).2,
      (convertStreamLoop gen (initStreamState gen) evs).1.responseId, ?_, ?_, ?_⟩
    · rw [hout gen evs, hsd, hsf]
      simp
    · rw [hf, hdelta]
    · rw [hd, hstop]

/-- Witness for C1: the characterization applied to a truncated upstream
sequence (role announcement then a text delta, no `message_delta`, no
`message_stop`). -/
theorem convertStreamResponse_termination_witness :
    (convertStreamResponse ("g")
        [ClaudeStreamEvent.message_start none,
         ClaudeStreamEvent.content_block_delta (CDelta.text_delta ("hi"))]).countP isDoneC =
      max 1 (([ClaudeStreamEvent.message_start none,
         ClaudeStreamEvent.content_block_delta (CDelta.text_delta ("hi"))] :
           List ClaudeStreamEvent).countP isMsgStopE) ∧
    ∃ (body : List OutChunk) (rid : String),
      convertStreamResponse ("g")
          [ClaudeStreamEvent.message_start none,
           ClaudeStreamEvent.content_block_delta (CDelta.text_delta ("hi"))] =
        body ++ [OutChunk.finish rid (some ("stop")), OutChunk.done] ∧
      body.countP isFinishC = 0 ∧ body.countP isDoneC = 0 :=
  ⟨convertStreamResponse_termination.1 ("g") _,
   convertStreamResponse_termination.2.2 ("g") _ (by decide) (by decide)⟩

/-! ## Claim C8: the role-announcement chunk comes first -/

/-- Claim C8 counterexample (refutes the claim as stated): the manual
re-encoder emits the role chunk only when it sees a `message_start`
event; for an upstream sequence that never sends one, the very first
output chunk is a content chunk, not the role chunk. -/
theorem convertStreamResponse_no_message_start_cex :
    convertStreamResponse ("g")
        [ClaudeStreamEvent.content_block_delta (CDelta.text_delta ("hi"))] =
      [OutChunk.content ("g") ("hi"), OutChunk.finish ("g") (some ("stop")), OutChunk.done] ∧
    ((convertStreamResponse ("g")
        [ClaudeStreamEvent.content_block_delta (CDelta.text_delta ("hi"))]).head?.map isRoleC) =
      some false :=
  ⟨rfl, rfl⟩

/-- Claim C8 (corrected). For every upstream sequence whose *first* event
is `message_start` (as every well-formed target-protocol stream begins),
the very first chunk the manual re-encoder writes is the
`{role: assistant}` delta chunk, before any content, tool-call or
finish-reason chunk; and the SDK streaming path writes the role chunk
first unconditionally, for every event sequence and stop reason. -/
theorem convertStreamResponse_role_first :
    (∀ (gen : String) (mid : Option String) (rest : List ClaudeStreamEvent),
      ((convertStreamResponse gen (ClaudeStreamEvent.message_start mid :: rest)).head?.map isRoleC) =
        some true) ∧
    (∀ (rid : String) (evs : List SDKEvent) (fin : Option String),
      ((convertStreamWithSDK rid evs fin).head?.map isRoleC) = some true) := by
  constructor
  · intro gen mid rest
    cases mid with
    | none =>
        simp [convertStreamResponse, convertStreamLoop, convertStreamStep, isRoleC]
    | some i =>
        by_cases hi : i = "" <;>
          simp [convertStreamResponse, convertStreamLoop, convertStreamStep, isRoleC, hi]
  · intro rid evs fin
    simp [convertStreamWithSDK, isRoleC]

/-! ## Claim C3: tool-call accumulation and flush -/

/-- Claim C3 (code bug). In the manual re-encoder the `input_json_delta`
fragments are indeed accumulated silently and flushed as one tool-call
chunk carrying the full `{index, id, name, arguments}` at the block's
`content_block_stop` — but the in-progress record is *never* cleared
(`toolCalls` keeps the finished call), so every later
`content_block_stop` (here: of a following text block) re-emits the very
same tool call a second time. The SDK path clears `currentToolCall` and
emits the call exactly once on the same upstream sequence, which is the
behavior the claim describes. -/
theorem convertStreamResponse_tool_call_reemitted :
    convertStreamResponse ("g") evsToolReemit =
      [OutChunk.tool_call ("g") 0 ("t1") ("f") ("\x7b\"a\":1\x7d"),
       OutChunk.content ("g") ("x"),
       OutChunk.tool_call ("g") 0 ("t1") ("f") ("\x7b\"a\":1\x7d"),
       OutChunk.finish ("g") (some ("stop")), OutChunk.done] ∧
    (convertStreamResponse ("g") evsToolReemit).countP isToolCallC = 2 ∧
    convertStreamWithSDK ("g") sdkEvsTool none =
      [OutChunk.role ("g"),
       OutChunk.tool_call ("g") 0 ("t1") ("f") ("\x7b\"a\":1\x7d"),
       OutChunk.content ("g") ("x"),
       OutChunk.finish ("g") (some ("stop")), OutChunk.done] ∧
    (convertStreamWithSDK ("g") sdkEvsTool none).countP isToolCallC = 1 := by
  refine ⟨by decide, by decide, by decide, by decide⟩

/-! ## Claim C9: the retrying transport -/

theorem fetchWithRetryGo_first_terminal (oracle : Nat → FetchOutcome) :
    ∀ (remaining attempt k s : Nat) (lastE : Option String) (lastR : Option FetchResp),
      attempt + remaining = MAX_RETRIES + 1 → attempt ≤ k → k ≤ MAX_RETRIES →
      (∀ j, attempt ≤ j → j < k → retryableOutcome (oracle j) = true) →
      oracle k = FetchOutcome.ok s → s ∉ RETRY_STATUS_CODES →
      fetchWithRetryGo oracle attempt remaining lastE lastR =
        (Except.ok { attempt := k, status := s }, retryTrace (k - attempt)) := by
  intro remaining
  induction remaining with
  | zero =>
      intro attempt k s lastE lastR hsum hak hk _ _ _
      simp [MAX_RETRIES] at hsum hk
      omega
  | succ r ih =>
      intro attempt k s lastE lastR hsum hak hk hretry hok hs
      by_cases hke : attempt = k
      · subst hke
        simp only [fetchWithRetryGo, hok]
        rw [if_neg (fun hc => hs hc.1)]
        simp [retryTrace]
      · have hlt : attempt < k := lt_of_le_of_ne hak hke
        have hmax : attempt < MAX_RETRIES := by
          simp [MAX_RETRIES] at hk ⊢
          omega
        have hskip := hretry attempt le_rfl hlt
        have ihh := ih (attempt + 1) k s
        have hsum' : attempt + 1 + r = MAX_RETRIES + 1 := by omega
        have htrace : k - attempt = (k - (attempt + 1)) + 1 := by omega
        cases ho : oracle attempt with
        | ok st =>
            rw [ho] at hskip
            have hst : st ∈ RETRY_STATUS_CODES := by
              simpa [retryableOutcome] using hskip
            simp only [fetchWithRetryGo, ho]
            rw [if_pos ⟨hst, hmax⟩,
              ihh lastE (some { attempt := attempt, status := st }) hsum' hlt hk
                (fun j hj1 hj2 => hretry j (by omega) hj2) hok hs]
            rw [htrace]
            rfl
        | err e =>
            simp only [fetchWithRetryGo, ho]
            rw [if_pos hmax,
              ihh (some e) lastR hsum' hlt hk
                (fun j hj1 hj2 => hretry j (by omega) hj2) hok hs]
            rw [htrace]
            rfl

theorem fetchWithRetryGo_all_transient (oracle : Nat → FetchOutcome) :
    ∀ (remaining attempt s10 : Nat) (lastE : Option String) (lastR : Option FetchResp),
      attempt + remaining = MAX_RETRIES + 1 → 1 ≤ attempt → attempt ≤ MAX_RETRIES →
      (∀ j, attempt ≤ j → j ≤ MAX_RETRIES →
        ∃ st, oracle j = FetchOutcome.ok st ∧ st ∈ RETRY_STATUS_CODES) →
      oracle MAX_RETRIES = FetchOutcome.ok s10 →
      fetchWithRetryGo oracle attempt remaining lastE lastR =
        (Except.ok { attempt := MAX_RETRIES, status := s10 }, retryTrace (MAX_RETRIES - attempt)) := by
  intro remaining
  induction remaining with
  | zero =>
      intro attempt s10 lastE lastR hsum _ hmax _ _
      simp [MAX_RETRIES] at hsum hmax
      omega
  | succ r ih =>
      intro attempt s10 lastE lastR hsum h1 hmax hall h10
      obtain ⟨st, ho, hst⟩ := hall attempt le_rfl hmax
      by_cases hke : attempt = MAX_RETRIES
      · subst hke
        rw [ho] at h10
        injection h10 with hsteq
        subst hsteq
        simp only [fetchWithRetryGo, ho]
        rw [if_neg (fun hc => absurd hc.2 (lt_irrefl _))]
        simp [retryTrace]
      · have hlt : attempt < MAX_RETRIES := lt_of_le_of_ne hmax hke
        have htrace : MAX_RETRIES - attempt = (MAX_RETRIES - (attempt + 1)) + 1 := by
          simp [MAX_RETRIES] at hlt ⊢
          omega
        simp only [fetchWithRetryGo, ho]
        rw [if_pos ⟨hst, hlt⟩,
          ih (attempt + 1) s10 lastE (some { attempt := attempt, status := st })
            (by omega) (by omega) hlt
            (fun j hj1 hj2 => hall j (by omega) hj2) h10]
        rw [htrace]
        rfl

theorem fetchWithRetryGo_all_err (oracle : Nat → FetchOutcome) :
    ∀ (remaining attempt : Nat) (e10 : String) (lastE : Option String),
      attempt + remaining = MAX_RETRIES + 1 → 1 ≤ attempt → attempt ≤ MAX_RETRIES →
      (∀ j, attempt ≤ j → j ≤ MAX_RETRIES → ∃ e, oracle j = FetchOutcome.err e) →
      oracle MAX_RETRIES = FetchOutcome.err e10 →
      fetchWithRetryGo oracle attempt remaining lastE none =
        (Except.error e10, retryTrace (MAX_RETRIES - attempt)) := by
  intro remaining
  induction remaining with
  | zero =>
      intro attempt e10 lastE hsum _ hmax _ _
      simp [MAX_RETRIES] at hsum hmax
      omega
  | succ r ih =>
      intro attempt e10 lastE hsum h1 hmax hall h10
      obtain ⟨e, ho⟩ := hall attempt le_rfl hmax
      by_cases hke : attempt = MAX_RETRIES
      · subst hke
        rw [ho] at h10
        injection h10 with heeq
        subst heeq
        have hr0 : r = 0 := by
          simp [MAX_RETRIES] at hsum
          omega
        subst hr0
        simp only [fetchWithRetryGo, ho]
        rw [if_neg (lt_irrefl _)]
        simp [retryTrace]
      · have hlt : attempt < MAX_RETRIES := lt_of_le_of_ne hmax hke
        have htrace : MAX_RETRIES - attempt = (MAX_RETRIES - (attempt + 1)) + 1 := by
          simp [MAX_RETRIES] at hlt ⊢
          omega
        simp only [fetchWithRetryGo, ho]
        rw [if_pos hlt,
          ih (attempt + 1) e10 (some e) (by omega) (by omega) hlt
            (fun j hj1 hj2 => hall j (by omega) hj2) h10]
        rw [htrace]
        rfl

theorem fetchWithRetryGo_fetch_bound (oracle : Nat → FetchOutcome) :
    ∀ (remaining attempt : Nat) (lastE : Option String) (lastR : Option FetchResp),
      ((fetchWithRetryGo oracle attempt remaining lastE lastR).2.countP isCloneFetch) ≤ remaining := by
  intro remaining
  induction remaining with
  | zero =>
      intro attempt lastE lastR
      cases lastR <;> simp [fetchWithRetryGo]
  | succ r ih =>
      intro attempt lastE lastR
      cases ho : oracle attempt with
      | ok st =>
          simp only [fetchWithRetryGo, ho]
          split
          · simp only [List.countP_cons, isCloneFetch]
            have := ih (attempt + 1) lastE (some { attempt := attempt, status := st })
            simp
            omega
          · simp [isCloneFetch]
      | err e =>
          simp only [fetchWithRetryGo, ho]
          split
          · simp only [List.countP_cons, isCloneFetch]
            have := ih (attempt + 1) (some e) lastR
            simp
            omega
          · simp only [List.countP_cons, isCloneFetch]
            have := ih (attempt + 1) (some e) lastR
            simp
            omega

/-- Claim C9 (confirmed). The retrying transport: (1) when the attempts
before `k` all yield a transient status or a connection error and attempt
`k` returns a non-transient status, the call returns attempt `k`'s
response, having performed exactly `k` clone-and-fetches with exactly one
fixed 1000 ms sleep between consecutive ones; (2) when all
`MAX_RETRIES = 10` attempts return transient statuses, it returns the
10th (last) transient response; (3) when every attempt throws at the
connection level, it raises the last (10th) error; (4) it never performs
more than 10 fetch attempts. -/
theorem fetchWithRetry_spec :
    (∀ (oracle : Nat → FetchOutcome) (k s : Nat), 1 ≤ k → k ≤ MAX_RETRIES →
      (∀ j, 1 ≤ j → j < k → retryableOutcome (oracle j) = true) →
      oracle k = FetchOutcome.ok s → s ∉ RETRY_STATUS_CODES →
      fetchWithRetry oracle = (Except.ok { attempt := k, status := s }, retryTrace (k - 1))) ∧
    (∀ (oracle : Nat → FetchOutcome) (s10 : Nat),
      (∀ j, 1 ≤ j → j ≤ MAX_RETRIES →
        ∃ st, oracle j = FetchOutcome.ok st ∧ st ∈ RETRY_STATUS_CODES) →
      oracle MAX_RETRIES = FetchOutcome.ok s10 →
      fetchWithRetry oracle =
        (Except.ok { attempt := MAX_RETRIES, status := s10 }, retryTrace (MAX_RETRIES - 1))) ∧
    (∀ (oracle : Nat → FetchOutcome) (e10 : String),
      (∀ j, 1 ≤ j → j ≤ MAX_RETRIES → ∃ e, oracle j = FetchOutcome.err e) →
      oracle MAX_RETRIES = FetchOutcome.err e10 →
      fetchWithRetry oracle = (Except.error e10, retryTrace (MAX_RETRIES - 1))) ∧
    (∀ (oracle : Nat → FetchOutcome),
      ((fetchWithRetry oracle).2.countP isCloneFetch) ≤ MAX_RETRIES) := by
  refine ⟨?_, ?_, ?_, ?_⟩
  · intro oracle k s h1 hk hretry hok hs
    exact fetchWithRetryGo_first_terminal oracle MAX_RETRIES 1 k s none none rfl h1 hk
      (fun j hj1 hj2 => hretry j hj1 hj2) hok hs
  · intro oracle s10 hall h10
    exact fetchWithRetryGo_all_transient oracle MAX_RETRIES 1 s10 none none rfl le_rfl
      (by simp [MAX_RETRIES]) hall h10
  · intro oracle e10 hall h10
    exact fetchWithRetryGo_all_err oracle MAX_RETRIES 1 e10 none rfl le_rfl
      (by simp [MAX_RETRIES]) hall h10
  · intro oracle
    exact fetchWithRetryGo_fetch_bound oracle MAX_RETRIES 1 none none

/-- Witness for C9: an oracle whose first attempt throws, second returns
a transient 503, third returns 200 — the transport returns attempt 3's
response after two sleep-separated retries. -/
theorem fetchWithRetry_spec_witness :
    fetchWithRetry oracleW = (Except.ok { attempt := 3, status := 200 }, retryTrace 2) :=
  fetchWithRetry_spec.1 oracleW 3 200 (by decide) (by decide)
    (fun j hj1 hj2 => by

      have hj : j = 1 ∨ j = 2 := by omega
      rcases hj with hj | hj <;> subst hj <;> decide)
    (by decide) (by decide)
